import Mathlib

/-!
Shallow embedding of the `instructor_cookbooks` notebooks and proofs about
their pure post-processing logic.  Python strings are modelled as `List Char`
where character-level operations matter and as `String` elsewhere; machine
behaviour of the Python standard library functions used by the notebooks
(`re.finditer` with an escaped pattern, `str.replace`, `str.split`,
`str.strip`, `dict.get`) is modelled explicitly.  Fallible code returns
`Except`.
-/

namespace Citations
/-! Embedding of `src/04_exact_citations.ipynb`.

`Fact.validate_sources` reads `info.context.get("text_chunk", None)`, collects
the spans of `re.finditer(re.escape(quote), context)` for every claimed quote
and replaces `substring_quote` by the context slices at those spans.
`QuestionAnswer.validate_sources` then keeps only facts with a nonempty
`substring_quote`. -/

/-- Python slice `context[a:b]` for `0 ≤ a ≤ b` (the only use sites). -/
def substrSpan (ctx : List Char) (a b : Nat) : List Char :=
  (ctx.drop a).take (b - a)

/-- `re.escape(q)` followed by a regex match of the escaped pattern at
position `i` succeeds exactly when the literal characters of `q` occur at
`i`: the slice of length `q.length` starting at `i` equals `q`. -/
def occursAt (q ctx : List Char) (i : Nat) : Bool :=
  decide ((ctx.drop i).take q.length = q)

/-- Scanning loop of `re.finditer(re.escape(quote), context)`: left-to-right,
non-overlapping; after a match the scan resumes at the match end (advancing
at least one position, as the regex engine does for empty matches).  `fuel`
bounds the number of iterations; `ctx.length + 1` iterations always suffice
because the position strictly increases. -/
def findSpansAux (q ctx : List Char) : Nat → Nat → List (Nat × Nat)
  | _, 0 => []
  | i, fuel + 1 =>
    if i > ctx.length then []
    else if occursAt q ctx i then
      (i, i + q.length) :: findSpansAux q ctx (i + max 1 q.length) fuel
    else
      findSpansAux q ctx (i + 1) fuel

/-- All spans yielded by `re.finditer(re.escape(q), ctx)`. -/
def findSpans (q ctx : List Char) : List (Nat × Nat) :=
  findSpansAux q ctx 0 (ctx.length + 1)

structure Fact where
  fact : List Char
  substring_quote : List (List Char)
deriving DecidableEq, Repr

structure QuestionAnswer where
  question : List Char
  answer : List Fact
deriving DecidableEq, Repr

/-- `Fact.get_spans`: spans of every claimed quote, in quote order. -/
def Fact.get_spans (f : Fact) (ctx : List Char) : List (Nat × Nat) :=
  f.substring_quote.flatMap (fun q => findSpans q ctx)

/-- `Fact.validate_sources` with the `"text_chunk"` context string `ctx`:
replaces `substring_quote` by the context slices at the found spans. -/
def Fact.validate_sources (f : Fact) (ctx : List Char) : Fact :=
  { f with substring_quote := (f.get_spans ctx).map (fun s => substrSpan ctx s.1 s.2) }

/-- `QuestionAnswer.validate_sources`: keeps the facts whose (already
validated) `substring_quote` is nonempty. -/
def QuestionAnswer.validate_sources (qa : QuestionAnswer) : QuestionAnswer :=
  { qa with answer := qa.answer.filter (fun f => f.substring_quote.length > 0) }

/-- Full pydantic validation of a `QuestionAnswer` with context string `ctx`:
the `Fact` model validators run on each member of `answer` first, then the
`QuestionAnswer` model validator filters. -/
def validateQA (qa : QuestionAnswer) (ctx : List Char) : QuestionAnswer :=
  QuestionAnswer.validate_sources
    { qa with answer := qa.answer.map (fun f => f.validate_sources ctx) }

lemma findSpansAux_sound {q ctx : List Char} :
    ∀ fuel i a b, (a, b) ∈ findSpansAux q ctx i fuel →
      occursAt q ctx a = true ∧ b = a + q.length := by
  intro fuel
  induction fuel with
  | zero => intro i a b h; simp [findSpansAux] at h
  | succ n ih =>
    intro i a b h
    by_cases hi : i > ctx.length
    · simp [findSpansAux, hi] at h
    · by_cases hocc : occursAt q ctx i
      · simp [findSpansAux, hi, hocc] at h
        rcases h with ⟨ha, hb⟩ | h
        · exact ⟨ha ▸ hocc, by omega⟩
        · exact ih _ a b h
      · simp [findSpansAux, hi, hocc] at h
        exact ih _ a b h

lemma findSpans_sound {q ctx : List Char} {a b : Nat}
    (h : (a, b) ∈ findSpans q ctx) :
    occursAt q ctx a = true ∧ b = a + q.length :=
  findSpansAux_sound _ _ a b h

lemma findSpansAux_nil_of_not_occurs {q ctx : List Char}
    (hocc : ∀ j, occursAt q ctx j = false) :
    ∀ fuel i, findSpansAux q ctx i fuel = [] := by
  intro fuel
  induction fuel with
  | zero => intro i; simp [findSpansAux]
  | succ n ih =>
    intro i
    by_cases hi : i > ctx.length
    · simp [findSpansAux, hi]
    · simp [findSpansAux, hi, hocc i, ih]

/-- A quote with no literal occurrence contributes no spans at all. -/
lemma findSpans_nil_of_not_occurs {q ctx : List Char}
    (hocc : ∀ j, occursAt q ctx j = false) : findSpans q ctx = [] :=
  findSpansAux_nil_of_not_occurs hocc _ _

lemma occursAt_zero_of_high {q ctx : List Char} {j : Nat}
    (hj : ctx.length < j) (h : occursAt q ctx j = true) :
    occursAt q ctx 0 = true := by
  simp only [occursAt, decide_eq_true_eq] at h ⊢
  have hd : ctx.drop j = [] := List.drop_eq_nil_of_le (by omega)
  rw [hd] at h
  simp only [List.take_nil] at h
  have hq : q = [] := h.symm
  simp [hq]

lemma findSpansAux_ne_nil {q ctx : List Char} :
    ∀ fuel i j, i ≤ j → i + fuel ≥ ctx.length + 1 → j ≤ ctx.length →
      occursAt q ctx j = true → findSpansAux q ctx i fuel ≠ [] := by
  intro fuel
  induction fuel with
  | zero => intro i j hij hfuel hj _; omega
  | succ n ih =>
    intro i j hij hfuel hj hocc
    have hi : ¬ i > ctx.length := by omega
    by_cases hcur : occursAt q ctx i
    · simp [findSpansAux, hi, hcur]
    · have hne : i ≠ j := fun h => hcur (h ▸ hocc)
      simp only [findSpansAux, if_neg hi, if_neg hcur]
      exact ih (i + 1) j (by omega) (by omega) hj hocc

/-- A quote that does occur literally in the context yields at least one
span. -/
lemma findSpans_ne_nil {q ctx : List Char} {j : Nat}
    (hocc : occursAt q ctx j = true) : findSpans q ctx ≠ [] := by
  by_cases hj : j ≤ ctx.length
  · exact findSpansAux_ne_nil _ 0 j (Nat.zero_le _) (by omega) hj hocc
  · exact findSpansAux_ne_nil _ 0 0 (Nat.le_refl _) (by omega) (Nat.zero_le _)
      (occursAt_zero_of_high (by omega) hocc)

/-- The slice at a found span is the quote itself. -/
lemma substrSpan_of_occursAt {q ctx : List Char} {a : Nat}
    (h : occursAt q ctx a = true) : substrSpan ctx a (a + q.length) = q := by
  simp only [occursAt, decide_eq_true_eq] at h
  simpa [substrSpan] using h

end Citations

/-- C1: validating a `QuestionAnswer` with a context string replaces each
fact's `substring_quote` by exactly the context slices at the spans found by
the literal (regex-escaped) search; every retained quote is one of the
claimed quotes and occurs literally in the context; a quote with no literal
occurrence contributes nothing; a quote with an occurrence yields at least
one retained quote; and every fact whose resulting `substring_quote` is empty
is removed, so every retained fact keeps at least one verified quote. -/
theorem C1_citation_validation (qa : Citations.QuestionAnswer) (ctx : List Char) :
    (Citations.validateQA qa ctx).answer
      = (qa.answer.map (fun f => f.validate_sources ctx)).filter
          (fun f => f.substring_quote.length > 0)
    ∧ (∀ f : Citations.Fact, (f.validate_sources ctx).substring_quote
        = (f.get_spans ctx).map (fun s => Citations.substrSpan ctx s.1 s.2))
    ∧ (∀ f : Citations.Fact, ∀ q' ∈ (f.validate_sources ctx).substring_quote,
        ∃ q ∈ f.substring_quote, q' = q ∧ ∃ i, Citations.occursAt q ctx i = true)
    ∧ (∀ q : List Char, (∀ j, Citations.occursAt q ctx j = false) →
        Citations.findSpans q ctx = [])
    ∧ (∀ f : Citations.Fact, ∀ q ∈ f.substring_quote,
        (∃ j, Citations.occursAt q ctx j = true) →
        (f.validate_sources ctx).substring_quote ≠ [])
    ∧ (∀ f ∈ (Citations.validateQA qa ctx).answer, f.substring_quote ≠ []) := by
  refine ⟨rfl, fun f => rfl, ?_, ?_, ?_, ?_⟩
  · intro f q' hq'
    simp only [Citations.Fact.validate_sources, Citations.Fact.get_spans,
      List.mem_map, List.mem_flatMap] at hq'
    obtain ⟨⟨a, b⟩, ⟨q, hq, hspan⟩, rfl⟩ := hq'
    obtain ⟨hocc, rfl⟩ := Citations.findSpans_sound hspan
    exact ⟨q, hq, Citations.substrSpan_of_occursAt hocc, a, hocc⟩
  · intro q hq
    exact Citations.findSpans_nil_of_not_occurs hq
  · intro f q hq ⟨j, hocc⟩
    obtain ⟨s, hs⟩ :=
      List.exists_mem_of_ne_nil _ (Citations.findSpans_ne_nil hocc)
    have hmem : s ∈ f.get_spans ctx := by
      simp only [Citations.Fact.get_spans, List.mem_flatMap]
      exact ⟨q, hq, hs⟩
    have : Citations.substrSpan ctx s.1 s.2
        ∈ (f.validate_sources ctx).substring_quote :=
      List.mem_map_of_mem _ hmem
    exact List.ne_nil_of_mem this
  · intro f hf
    simp only [Citations.validateQA, Citations.QuestionAnswer.validate_sources,
      List.mem_filter] at hf
    have := hf.2
    simp only [gt_iff_lt, decide_eq_true_eq] at this
    exact List.ne_nil_of_length_pos this

/-- Witness for C1 at a concrete answer and context: the quote `"ab"` occurs
in `"xaby"`, so the validated fact keeps at least one quote. -/
theorem C1_citation_validation_witness :
    ((Citations.Fact.mk ['f'] [['a', 'b']]).validate_sources
      ['x', 'a', 'b', 'y']).substring_quote ≠ [] :=
  (C1_citation_validation ⟨[], []⟩ ['x', 'a', 'b', 'y']).2.2.2.2.1
    (Citations.Fact.mk ['f'] [['a', 'b']]) ['a', 'b'] (by decide) ⟨1, by decide⟩

namespace Citations
/-! Context plumbing for `Fact.validate_sources` (claim C9).

`info.context` is `None` when no `validation_context` is passed; it is a dict
whose `"text_chunk"` lookup may yield `None`.  We model the two levels as
`Option (Option (List Char))`.  When `info.context` is `None`,
`info.context.get(...)` raises `AttributeError` before anything else.  When
the retrieved value is `None`, `list(self.get_spans(None))` only raises (a
`TypeError` inside `re.finditer`) if the quote loop body runs at least once,
i.e. if `substring_quote` is nonempty; for an empty `substring_quote` the
generator yields nothing and validation succeeds with an empty list. -/

/-- Pydantic validation of a single `Fact` under an optional validation
context (`none` = no `validation_context` passed; `some none` = a context
dict without a usable `"text_chunk"` string). -/
def validateFactCtx (octx : Option (Option (List Char))) (f : Fact) :
    Except String Fact :=
  match octx with
  | none => .error "AttributeError: NoneType object has no attribute get"
  | some none =>
    match f.substring_quote with
    | [] => .ok { f with substring_quote := [] }
    | _ :: _ => .error "TypeError: expected string or bytes-like object"
  | some (some ctx) => .ok (f.validate_sources ctx)

/-- Validation context that `ask_ai` passes:
`validation_context={"text_chunk": context}`. -/
def askAiValidationContext (context : List Char) : Option (Option (List Char)) :=
  some (some context)

/-- Pydantic validation of the facts of an `answer` list, stopping at the
first failing fact. -/
def validateFactsCtx (octx : Option (Option (List Char))) :
    List Fact → Except String (List Fact)
  | [] => .ok []
  | f :: rest => do
    let f' ← validateFactCtx octx f
    let rest' ← validateFactsCtx octx rest
    .ok (f' :: rest')

/-- Pydantic validation of a `QuestionAnswer` under an optional validation
context: the member facts are validated first, then the model validator
filters. -/
def validateQACtx (octx : Option (Option (List Char))) (qa : QuestionAnswer) :
    Except String QuestionAnswer :=
  (validateFactsCtx octx qa.answer).map
    (fun fs => QuestionAnswer.validate_sources { qa with answer := fs })

end Citations

/-- Counterexample to C9 as stated: a `Fact` with an empty `substring_quote`
validates successfully under a validation context that supplies no
`"text_chunk"` string (the quote loop never runs, so the `None` context value
is never searched). -/
theorem C9_counterexample :
    (Citations.validateFactCtx (some none)
      (Citations.Fact.mk ['f'] [])).isOk = true := by
  decide

/-- C9 amended: with no validation context at all, validating a `Fact` always
fails (`info.context.get` is an attribute access on `None`); with a context
lacking a `"text_chunk"` string it fails whenever `substring_quote` is
nonempty; hence validation succeeds only when a context string is supplied
(as `ask_ai` does) or the fact claims no quotes at all; and a
`QuestionAnswer` containing at least one fact also always fails without a
validation context. -/
theorem C9_context_required (f : Citations.Fact)
    (octx : Option (Option (List Char))) (qa : Citations.QuestionAnswer) :
    (Citations.validateFactCtx none f).isOk = false
    ∧ (f.substring_quote ≠ [] →
        (Citations.validateFactCtx (some none) f).isOk = false)
    ∧ ((Citations.validateFactCtx octx f).isOk = true →
        (∃ c, octx = some (some c)) ∨ f.substring_quote = [])
    ∧ (∀ c : List Char,
        Citations.validateFactCtx (Citations.askAiValidationContext c) f
          = .ok (f.validate_sources c))
    ∧ (qa.answer ≠ [] → (Citations.validateQACtx none qa).isOk = false) := by
  refine ⟨rfl, ?_, ?_, fun c => rfl, ?_⟩
  · intro hne
    cases h : f.substring_quote with
    | nil => exact absurd h hne
    | cons a l =>
      simp [Citations.validateFactCtx, h, Except.isOk, Except.toBool]
  · intro hok
    match octx with
    | none => simp [Citations.validateFactCtx, Except.isOk, Except.toBool] at hok
    | some none =>
      cases h : f.substring_quote with
      | nil => exact Or.inr rfl
      | cons a l =>
        rw [Citations.validateFactCtx] at hok
        simp [h, Except.isOk, Except.toBool] at hok
    | some (some c) => exact Or.inl ⟨c, rfl⟩
  · intro hne
    cases h : qa.answer with
    | nil => exact absurd h hne
    | cons a l =>
      rw [Citations.validateQACtx, h]
      rfl

/-- Witness for C9 (amended) at a concrete fact, context and answer. -/
theorem C9_context_required_witness :
    (Citations.validateFactCtx (some none)
      (Citations.Fact.mk ['f'] [['a']])).isOk = false
    ∧ (Citations.validateQACtx none
        (Citations.QuestionAnswer.mk ['q'] [Citations.Fact.mk ['f'] []])).isOk
        = false :=
  ⟨(C9_context_required (Citations.Fact.mk ['f'] [['a']]) none ⟨[], []⟩).2.1
      (by decide),
   (C9_context_required (Citations.Fact.mk ['f'] []) none
      (Citations.QuestionAnswer.mk ['q'] [Citations.Fact.mk ['f'] []])).2.2.2.2
      (by decide)⟩

namespace PII
/-! Embedding of `src/09_pii.ipynb` (`PIIDataExtraction.scrub_data`).

`scrub_data` runs `content = content.replace(data.pii_value,
f"<{data.data_type}_{i}>")` for `i, data in enumerate(self.private_data)` and
returns the final `content`.  `str.replace` replaces every non-overlapping
literal occurrence, scanning left to right; with an empty search string
Python inserts the replacement before every character and at the end. -/

/-- One left-to-right pass of `str.replace` for a nonempty search string
`old`; `fuel ≥ s.length` guarantees the scan completes (each step consumes at
least one character of `s`). -/
def pyReplaceFuel (old new : List Char) : Nat → List Char → List Char
  | _, [] => []
  | 0, s => s
  | fuel + 1, c :: rest =>
    if old.isPrefixOf (c :: rest) then
      new ++ pyReplaceFuel old new fuel ((c :: rest).drop old.length)
    else
      c :: pyReplaceFuel old new fuel rest

/-- Python `s.replace(old, new)`: every non-overlapping literal occurrence of
`old` in `s` is replaced by `new`; an empty `old` matches at every position,
so `new` is interleaved before each character and appended at the end. -/
def pyReplace (s old new : List Char) : List Char :=
  if old = [] then new ++ s.flatMap (fun c => c :: new)
  else pyReplaceFuel old new s.length s

/-- `Data`: one extracted PII item. -/
structure Data where
  index : Int
  data_type : List Char
  pii_value : List Char
deriving DecidableEq, Repr

/-- The placeholder `f"<{data_type}_{i}>"`. -/
def placeholder (data_type : List Char) (i : Nat) : List Char :=
  '<' :: data_type ++ '_' :: (Nat.repr i).toList ++ ['>']

structure PIIDataExtraction where
  private_data : List Data
deriving DecidableEq, Repr

/-- The `for i, data in enumerate(self.private_data)` loop of `scrub_data`,
started at counter `i`. -/
def scrubFrom : List Data → Nat → List Char → List Char
  | [], _, content => content
  | d :: rest, i, content =>
    scrubFrom rest (i + 1) (pyReplace content d.pii_value (placeholder d.data_type i))

/-- `PIIDataExtraction.scrub_data`. -/
def PIIDataExtraction.scrub_data (e : PIIDataExtraction) (content : List Char) :
    List Char :=
  scrubFrom e.private_data 0 content

/-- The claim's phrasing of the scrub: a sequential fold over the enumerated
`private_data` in list order, replacing every literal occurrence of
`private_data[i].pii_value` in the running document by the placeholder built
from `data_type` and the list position `i`. -/
def scrubSpec (e : PIIDataExtraction) (content : List Char) : List Char :=
  e.private_data.enum.foldl
    (fun acc p => pyReplace acc p.2.pii_value (placeholder p.2.data_type p.1))
    content

lemma scrubFrom_eq_foldl :
    ∀ (l : List Data) (i : Nat) (content : List Char),
      scrubFrom l i content
        = (l.enumFrom i).foldl
            (fun acc p => pyReplace acc p.2.pii_value (placeholder p.2.data_type p.1))
            content := by
  intro l
  induction l with
  | nil => intro i content; rfl
  | cons d rest ih =>
    intro i content
    simp [scrubFrom, List.enumFrom, List.foldl_cons, ih]

lemma scrubFrom_congr :
    ∀ (l₁ l₂ : List Data) (i : Nat) (content : List Char),
      l₁.map (fun d => (d.data_type, d.pii_value))
        = l₂.map (fun d => (d.data_type, d.pii_value)) →
      scrubFrom l₁ i content = scrubFrom l₂ i content := by
  intro l₁
  induction l₁ with
  | nil =>
    intro l₂ i content h
    cases l₂ with
    | nil => rfl
    | cons d rest => simp at h
  | cons d rest ih =>
    intro l₂ i content h
    cases l₂ with
    | nil => simp at h
    | cons d' rest' =>
      simp only [List.map_cons, List.cons.injEq, Prod.mk.injEq] at h
      obtain ⟨⟨ht, hv⟩, htl⟩ := h
      simp only [scrubFrom, ht, hv]
      exact ih rest' (i + 1) _ htl

end PII

/-- C2: `scrub_data` is exactly the sequential enumerate-and-replace fold the
spec describes (plain literal replacement, placeholder numbered by list
position), and the `Data.index` field is never consulted: two extractions
whose items agree on `data_type` and `pii_value` scrub every document
identically. -/
theorem C2_pii_scrub (e e₂ : PII.PIIDataExtraction) (doc : List Char) :
    e.scrub_data doc = PII.scrubSpec e doc
    ∧ (e.private_data.map (fun d => (d.data_type, d.pii_value))
        = e₂.private_data.map (fun d => (d.data_type, d.pii_value)) →
       e.scrub_data doc = e₂.scrub_data doc) := by
  constructor
  · simpa [PII.PIIDataExtraction.scrub_data, PII.scrubSpec, List.enum]
      using PII.scrubFrom_eq_foldl e.private_data 0 doc
  · intro h
    exact PII.scrubFrom_congr _ _ 0 doc h

/-- Witness for C2: two one-item extractions that differ only in `index`
scrub the document `"zxz"` identically. -/
theorem C2_pii_scrub_witness :
    (PII.PIIDataExtraction.mk [PII.Data.mk 0 ['e'] ['x']]).scrub_data
        ['z', 'x', 'z']
      = (PII.PIIDataExtraction.mk [PII.Data.mk 7 ['e'] ['x']]).scrub_data
        ['z', 'x', 'z'] :=
  (C2_pii_scrub (PII.PIIDataExtraction.mk [PII.Data.mk 0 ['e'] ['x']])
    (PII.PIIDataExtraction.mk [PII.Data.mk 7 ['e'] ['x']])
    ['z', 'x', 'z']).2 (by decide)

namespace KG
/-! Embedding of `src/06_knowledge_graph.ipynb`.

`BaseModelHashable` gives `Node` and `Edge` a structural hash over their
field values; pydantic equality is already structural, so Python `set`
membership coincides with structural equality, modelled here by the derived
`DecidableEq`.  `KnowledgeGraph.update` returns
`list(set(self.nodes + other.nodes))` and likewise for edges; the set
constructor deduplicates and leaves the order unspecified, modelled by
`List.dedup`. -/

structure Node where
  id : Int
  label : String
  color : String
deriving DecidableEq, Repr

structure Edge where
  source : Int
  target : Int
  label : String
  color : String := "black"
deriving DecidableEq, Repr

structure KnowledgeGraph where
  nodes : List Node := []
  edges : List Edge := []
deriving DecidableEq, Repr

/-- `KnowledgeGraph.update`: concatenate, deduplicate. -/
def KnowledgeGraph.update (g other : KnowledgeGraph) : KnowledgeGraph :=
  { nodes := (g.nodes ++ other.nodes).dedup
    edges := (g.edges ++ other.edges).dedup }

end KG

/-- C5: the node set of `g.update(h)` is exactly the union of the node sets
of `g` and `h` (duplicates removed under structural equality), likewise for
edges; consequently `update` is commutative and idempotent up to set equality
of nodes and edges. -/
theorem C5_knowledge_graph_update (g h : KG.KnowledgeGraph) :
    (g.update h).nodes.toFinset = g.nodes.toFinset ∪ h.nodes.toFinset
    ∧ (g.update h).edges.toFinset = g.edges.toFinset ∪ h.edges.toFinset
    ∧ (g.update h).nodes.toFinset = (h.update g).nodes.toFinset
    ∧ (g.update h).edges.toFinset = (h.update g).edges.toFinset
    ∧ (g.update g).nodes.toFinset = g.nodes.toFinset
    ∧ (g.update g).edges.toFinset = g.edges.toFinset := by
  have hn : ∀ (α : Type) (_ : DecidableEq α) (l₁ l₂ : List α),
      (l₁ ++ l₂).dedup.toFinset = l₁.toFinset ∪ l₂.toFinset := by
    intro α _ l₁ l₂
    ext a
    simp [List.mem_dedup]
  refine ⟨hn _ _ _ _, hn _ _ _ _, ?_, ?_, ?_, ?_⟩
  · rw [KG.KnowledgeGraph.update, KG.KnowledgeGraph.update]
    simp only [hn]
    exact Finset.union_comm _ _
  · rw [KG.KnowledgeGraph.update, KG.KnowledgeGraph.update]
    simp only [hn]
    exact Finset.union_comm _ _
  · rw [KG.KnowledgeGraph.update]
    simp only [hn]
    exact Finset.union_self _
  · rw [KG.KnowledgeGraph.update]
    simp only [hn]
    exact Finset.union_self _

namespace Spam
/-! Embedding of the spam-classification part of
`src/08_entity_resolution.ipynb`: `SpamPrediction.label` has type
`Literal["spam", "not_spam"]`, so pydantic accepts exactly those two strings.
-/

structure SpamPrediction where
  label : String
deriving DecidableEq, Repr

/-- The two values the `Literal` type admits. -/
def spamLabels : List String := ["spam", "not_spam"]

/-- Pydantic validation of the `label` field against its `Literal` type. -/
def validateSpamPrediction (label : String) : Option SpamPrediction :=
  if label ∈ spamLabels then some { label := label } else none

/-- The inline check of the test cell: `prediction.label == "spam"`. -/
def spamCheck (p : SpamPrediction) : Bool :=
  p.label == "spam"

end Spam

/-- C7: every successfully parsed `SpamPrediction` carries one of the two
literal labels, so the inline `prediction.label == "spam"` check can only
fail with label `"not_spam"`, never with an out-of-vocabulary label. -/
theorem C7_spam_labels (s : String) (p : Spam.SpamPrediction)
    (hp : Spam.validateSpamPrediction s = some p) :
    (p.label = "spam" ∨ p.label = "not_spam")
    ∧ (Spam.spamCheck p = false → p.label = "not_spam") := by
  unfold Spam.validateSpamPrediction at hp
  by_cases hmem : s ∈ Spam.spamLabels
  · rw [if_pos hmem] at hp
    obtain rfl : Spam.SpamPrediction.mk s = p := Option.some.inj hp
    simp only [Spam.spamLabels, List.mem_cons, List.mem_singleton,
      List.not_mem_nil, or_false] at hmem
    refine ⟨hmem, fun hc => ?_⟩
    cases hmem with
    | inl h =>
      simp [Spam.spamCheck, h] at hc
    | inr h => exact h
  · rw [if_neg hmem] at hp
    exact absurd hp (by simp)

/-- Witness for C7: parsing `"not_spam"` succeeds and the check fails with
label `"not_spam"`. -/
theorem C7_spam_labels_witness :
    (Spam.SpamPrediction.mk "not_spam").label = "not_spam" :=
  (C7_spam_labels "not_spam" (Spam.SpamPrediction.mk "not_spam") (by decide)).2
    (by decide)

namespace Search05
/-! Embedding of `src/05_search.ipynb`.

`Search.execute` is the only execution operation; its body is a single
`print` of one formatted line and an implicit `return None`.  Printing is
modelled as the list of lines a call emits.  The example cell consumes the
segmented sub-queries one by one in a plain `for` loop, modelled as an
in-order `map` over the list of searches. -/

inductive SearchType where
  | web
  | image
  | video
deriving DecidableEq, Repr

/-- The literal string value of the `type` field. -/
def SearchType.val : SearchType → String
  | .web => "web"
  | .image => "image"
  | .video => "video"

structure Search where
  query : String
  type : SearchType
deriving DecidableEq, Repr

/-- `Search.execute`: the emitted output lines and the returned value. -/
def Search.execute (s : Search) : List String × Unit :=
  (["Searching for query `" ++ s.query ++ "` using `" ++ s.type.val ++ "`"], ())

/-- `model_dump_json()` of a `Search`. -/
def Search.model_dump_json (s : Search) : String :=
  "\x7b\"query\":\"" ++ s.query ++ "\",\"type\":\"" ++ s.type.val ++ "\"\x7d"

/-- The example cell: `for search in segment(...): print(search.model_dump_json())`
over an already-received list of searches; output lines in list order. -/
def exampleLoop (searches : List Search) : List String :=
  searches.map (fun s => s.model_dump_json)

end Search05

/-- C10: `Search.execute` emits exactly the single line
`Searching for query ... using ...` for the one search it is called on and
returns nothing, and the example cell consumes the segmented sub-queries
strictly sequentially in list order (an in-order map, one line per search);
no parallel execution exists in the model. -/
theorem C10_sequential_search (s : Search05.Search)
    (searches : List Search05.Search) :
    s.execute
      = (["Searching for query `" ++ s.query ++ "` using `" ++ s.type.val ++ "`"], ())
    ∧ (s.execute.1.length = 1 ∧ s.execute.2 = ())
    ∧ Search05.exampleLoop searches
        = searches.map (fun t => t.model_dump_json)
    ∧ (∀ t rest, Search05.exampleLoop (t :: rest)
        = t.model_dump_json :: Search05.exampleLoop rest) :=
  ⟨rfl, ⟨rfl, rfl⟩, rfl, fun _ _ => rfl⟩

namespace Moderation
/-! Embedding of `src/11_moderation.ipynb`.

Modelled from the spec: the moderation check itself
(`instructor.openai_moderation`, an `AfterValidator` that calls the hosted
OpenAI moderation endpoint) is not part of this repository; it is modelled as
an oracle `flagged` mapping a message to `some categories` when the
moderation endpoint flags it and `none` otherwise.  When flagged, the
validator raises a `ValueError` naming the flagged categories, which pydantic
surfaces as a validation error; otherwise the validated string is returned
unchanged.  The notebook cells wrap construction in
`try: ... except Exception as e: print(e)`. -/

structure Response where
  message : String
deriving DecidableEq, Repr

/-- Modelled from the spec: the text of the `ValueError` raised by
`openai_moderation`, reporting the flagged categories. -/
def moderationError (msg : String) (cats : List String) : String :=
  "`" ++ msg ++ "` was flagged for " ++ String.intercalate ", " cats

/-- Constructing `Response(message=msg)` under moderation oracle `flagged`. -/
def mkResponse (flagged : String → Option (List String)) (msg : String) :
    Except String Response :=
  match flagged msg with
  | some cats => .error (moderationError msg cats)
  | none => .ok { message := msg }

/-- The notebook cell: `try: Response(...) except Exception as e: print(e)`;
result is the list of printed lines. -/
def moderationCell (flagged : String → Option (List String)) (msg : String) :
    List String :=
  match mkResponse flagged msg with
  | .error e => [e]
  | .ok _ => []

end Moderation

/-- C6: constructing a `Response` fails with a validation error exactly when
the moderation oracle flags the message, the error text reports the flagged
categories, an unflagged message is stored unchanged, and the notebook cell
surfaces a failure only by printing the raised exception (and prints nothing
otherwise). -/
theorem C6_moderation (flagged : String → Option (List String)) (msg : String) :
    ((∃ e, Moderation.mkResponse flagged msg = .error e) ↔
      ∃ cats, flagged msg = some cats)
    ∧ (∀ cats, flagged msg = some cats →
        Moderation.mkResponse flagged msg
          = .error (Moderation.moderationError msg cats))
    ∧ (flagged msg = none →
        Moderation.mkResponse flagged msg = .ok { message := msg })
    ∧ (∀ r, Moderation.mkResponse flagged msg = .ok r → r.message = msg)
    ∧ (∀ e, Moderation.mkResponse flagged msg = .error e →
        Moderation.moderationCell flagged msg = [e])
    ∧ (∀ r, Moderation.mkResponse flagged msg = .ok r →
        Moderation.moderationCell flagged msg = []) := by
  refine ⟨⟨?_, ?_⟩, ?_, ?_, ?_, ?_, ?_⟩
  · rintro ⟨e, he⟩
    cases h : flagged msg with
    | none => rw [Moderation.mkResponse, h] at he; exact absurd he (by simp)
    | some cats => exact ⟨cats, rfl⟩
  · rintro ⟨cats, hc⟩
    exact ⟨Moderation.moderationError msg cats, by rw [Moderation.mkResponse, hc]⟩
  · intro cats hc
    rw [Moderation.mkResponse, hc]
  · intro h
    rw [Moderation.mkResponse, h]
  · intro r hr
    cases h : flagged msg with
    | none =>
      rw [Moderation.mkResponse, h] at hr
      cases Except.ok.inj hr
      rfl
    | some cats => rw [Moderation.mkResponse, h] at hr; exact absurd hr (by simp)
  · intro e he
    rw [Moderation.moderationCell, he]
  · intro r hr
    rw [Moderation.moderationCell, hr]

/-- Witness for C6 under a concrete oracle that flags the notebook's first
example message for violence and passes a greeting. -/
theorem C6_moderation_witness :
    Moderation.mkResponse
      (fun s => if s = "I want to make them suffer the consequences"
        then some ["violence"] else none)
      "I want to make them suffer the consequences"
      = .error (Moderation.moderationError
          "I want to make them suffer the consequences" ["violence"])
    ∧ Moderation.mkResponse
      (fun s => if s = "I want to make them suffer the consequences"
        then some ["violence"] else none) "hello"
      = .ok { message := "hello" } :=
  ⟨(C6_moderation
      (fun s => if s = "I want to make them suffer the consequences"
        then some ["violence"] else none)
      "I want to make them suffer the consequences").2.1 ["violence"] (by decide),
   (C6_moderation
      (fun s => if s = "I want to make them suffer the consequences"
        then some ["violence"] else none) "hello").2.2.1 (by decide)⟩

namespace Graphs
/-! Embedding of the two graphviz renderers: `generate_graph` from
`src/08_entity_resolution.ipynb` and the action-items cell of the planning
notebook (`src/unnamed/part_000`).  A `graphviz.Digraph` is modelled by its
accumulated node statements (name, label) and edge statements (tail, head),
each in emission order. -/

structure Digraph where
  nodes : List (String × String)
  edges : List (String × String)
deriving DecidableEq, Repr

structure Property where
  key : String
  value : String
  resolved_absolute_value : String
deriving DecidableEq, Repr

structure Entity where
  id : Int
  subquote_string : List String
  entity_title : String
  properties : List Property
  dependencies : List Int
deriving DecidableEq, Repr

structure DocumentExtraction where
  entities : List Entity
deriving DecidableEq, Repr

/-- `generate_html_label`. -/
def generate_html_label (e : Entity) : String :=
  "<<table border='0' cellborder='1' cellspacing='0'><tr><td colspan='2'><b>"
    ++ e.entity_title ++ "</b></td></tr>"
    ++ String.join (e.properties.map (fun p =>
        "<tr><td>" ++ p.key ++ "</td><td>" ++ p.resolved_absolute_value
          ++ "</td></tr>"))
    ++ "</table>>"

/-- `generate_graph` of the entity-resolution notebook: one node per entity,
then one edge `entity.id -> dep_id` per listed dependency id. -/
def generate_graph (data : DocumentExtraction) : Digraph :=
  { nodes := data.entities.map (fun e => (toString e.id, generate_html_label e))
    edges := data.entities.flatMap (fun e =>
      e.dependencies.map (fun d => (toString e.id, toString d))) }

inductive PriorityEnum where
  | high
  | medium
  | low
deriving DecidableEq, Repr

/-- `f"{ticket.priority}"` for a `(str, Enum)` mixin under the notebook's
Python (3.11+ formats enums with `Enum.__str__`). -/
def PriorityEnum.pyStr : PriorityEnum → String
  | .high => "PriorityEnum.high"
  | .medium => "PriorityEnum.medium"
  | .low => "PriorityEnum.low"

structure Subtask where
  id : Int
  name : String
deriving DecidableEq, Repr

structure Ticket where
  id : Int
  name : String
  description : String
  priority : PriorityEnum
  assignees : List String
  subtasks : Option (List Subtask)
  dependencies : Option (List Int)
deriving DecidableEq, Repr

/-- Node label of a ticket:
`f"{ticket.name}\n{ticket.priority}\n{', '.join(ticket.assignees)}"`. -/
def ticketNodeLabel (t : Ticket) : String :=
  t.name ++ "\n" ++ t.priority.pyStr ++ "\n" ++ String.intercalate ", " t.assignees

/-- The action-items graphviz cell: per ticket, its node, its subtask nodes
and edges, then one edge `dep -> ticket.id` per listed dependency id.
`if ticket.subtasks:`/`if ticket.dependencies:` skip `None`, and an empty
list contributes nothing either way, so both are `getD []`. -/
def actionItemsGraph (tickets : List Ticket) : Digraph :=
  { nodes := tickets.flatMap (fun t =>
      (toString t.id, ticketNodeLabel t)
        :: (t.subtasks.getD []).map (fun st =>
            (toString t.id ++ "." ++ toString st.id, st.name)))
    edges := tickets.flatMap (fun t =>
      (t.subtasks.getD []).map (fun st =>
          (toString t.id, toString t.id ++ "." ++ toString st.id))
        ++ (t.dependencies.getD []).map (fun d => (toString d, toString t.id))) }

end Graphs

/-- C3: both renderers add one node per record and then one edge per listed
dependency id unconditionally — `dep -> ticket.id` in the action-items cell
and `entity.id -> dep_id` in the entity renderer — with no check that a
referenced id names an existing node and no cycle detection: the output is a
plain map/flatMap of the input lists, and a dependency id is turned into an
edge whether or not it matches any node. -/
theorem C3_graph_renderers (tickets : List Graphs.Ticket)
    (data : Graphs.DocumentExtraction) :
    (Graphs.actionItemsGraph tickets).nodes
      = tickets.flatMap (fun t =>
          (toString t.id, Graphs.ticketNodeLabel t)
            :: (t.subtasks.getD []).map (fun st =>
                (toString t.id ++ "." ++ toString st.id, st.name)))
    ∧ (Graphs.actionItemsGraph tickets).edges
      = tickets.flatMap (fun t =>
          (t.subtasks.getD []).map (fun st =>
              (toString t.id, toString t.id ++ "." ++ toString st.id))
            ++ (t.dependencies.getD []).map (fun d => (toString d, toString t.id)))
    ∧ (∀ t ∈ tickets, ∀ d ∈ t.dependencies.getD [],
        (toString d, toString t.id) ∈ (Graphs.actionItemsGraph tickets).edges)
    ∧ (Graphs.generate_graph data).nodes
      = data.entities.map (fun e => (toString e.id, Graphs.generate_html_label e))
    ∧ (Graphs.generate_graph data).edges
      = data.entities.flatMap (fun e =>
          e.dependencies.map (fun d => (toString e.id, toString d)))
    ∧ (∀ e ∈ data.entities, ∀ d ∈ e.dependencies,
        (toString e.id, toString d) ∈ (Graphs.generate_graph data).edges) := by
  refine ⟨rfl, rfl, ?_, rfl, rfl, ?_⟩
  · intro t ht d hd
    simp only [Graphs.actionItemsGraph, List.mem_flatMap]
    exact ⟨t, ht, List.mem_append_right _ (List.mem_map_of_mem _ hd)⟩
  · intro e he d hd
    simp only [Graphs.generate_graph, List.mem_flatMap]
    exact ⟨e, he, List.mem_map_of_mem _ hd⟩

/-- Witness for C3: a ticket depending on the nonexistent id `99` and an
entity depending on itself still produce their edges. -/
theorem C3_graph_renderers_witness :
    ("99", "1") ∈ (Graphs.actionItemsGraph
        [Graphs.Ticket.mk 1 "t" "d" Graphs.PriorityEnum.high [] none
          (some [99])]).edges
    ∧ ("5", "5") ∈ (Graphs.generate_graph
        (Graphs.DocumentExtraction.mk
          [Graphs.Entity.mk 5 [] "e" [] [5]])).edges :=
  ⟨(C3_graph_renderers
      [Graphs.Ticket.mk 1 "t" "d" Graphs.PriorityEnum.high [] none (some [99])]
      (Graphs.DocumentExtraction.mk [])).2.2.1
      (Graphs.Ticket.mk 1 "t" "d" Graphs.PriorityEnum.high [] none (some [99]))
      (by decide) 99 (by decide),
   (C3_graph_renderers []
      (Graphs.DocumentExtraction.mk [Graphs.Entity.mk 5 [] "e" [] [5]])).2.2.2.2.2
      (Graphs.Entity.mk 5 [] "e" [] [5]) (by decide) 5 (by decide)⟩

namespace Segmentation
/-! Embedding of `src/17_document_segmentation.ipynb`.

`doc_with_lines` splits the document on `"\n"`, builds a numbered rendering
and the dict `line2text = {i: line}`.  `get_sections_text` joins
`line2text.get(line_id, '')` for `line_id in range(start_index, end_index)`
with `"\n"`.  Documents are `List Char`; section indices are Python ints,
modelled as `Int` (a negative or too-large index is simply absent from the
dict and contributes `''`). -/

/-- Python `range(a, b)` over ints. -/
def pyRange (a b : Int) : List Int :=
  (List.range (b - a).toNat).map (fun k => a + Int.ofNat k)

/-- `line2text.get(i, ...)` for the dict `{i: line for i, line in enumerate(lines)}`:
only keys `0 ≤ i < len(lines)` are present. -/
def lineLookup (lines : List (List Char)) (i : Int) : Option (List Char) :=
  if h : 0 ≤ i ∧ i.toNat < lines.length then some (lines.get ⟨i.toNat, h.2⟩)
  else none

/-- `doc_with_lines`: the numbered rendering and the line dict (as a lookup
function). -/
def doc_with_lines (document : List Char) :
    List Char × (Int → Option (List Char)) :=
  let lines := List.splitOn '\n' document
  (lines.enum.foldl
      (fun acc p =>
        acc ++ '[' :: (Nat.repr p.1).toList ++ ']' :: ' ' :: p.2 ++ ['\n'])
      [],
    lineLookup lines)

structure Section where
  title : List Char
  start_index : Int
  end_index : Int
deriving DecidableEq, Repr

structure StructuredDocument where
  sections : List Section
deriving DecidableEq, Repr

/-- One element of the list built by `get_sections_text` (a dict with keys
`title`, `content`, `start`, `end` in the source; `end` is a Lean keyword, so
the field is named `stop`). -/
structure Segment where
  title : List Char
  content : List Char
  start : Int
  stop : Int
deriving DecidableEq, Repr

/-- `get_sections_text`. -/
def get_sections_text (sd : StructuredDocument)
    (line2text : Int → Option (List Char)) : List Segment :=
  sd.sections.map (fun s =>
    { title := s.title
      content := List.intercalate ['\n']
        ((pyRange s.start_index s.end_index).map
          (fun i => (line2text i).getD []))
      start := s.start_index
      stop := s.end_index })

lemma pyRange_map_lineLookup (lines : List (List Char)) :
    (pyRange 0 (lines.length : Int)).map
        (fun i => (lineLookup lines i).getD []) = lines := by
  apply List.ext_getElem
  · rw [List.length_map]
    unfold pyRange
    rw [List.length_map, List.length_range]
    omega
  · intro n h₁ h₂
    rw [List.getElem_map]
    have hb : n < (pyRange 0 (lines.length : Int)).length := by
      rw [List.length_map] at h₁
      exact h₁
    have hgr : (pyRange 0 (lines.length : Int))[n] = (n : Int) := by
      unfold pyRange
      rw [List.getElem_map, List.getElem_range]
      simp [Int.ofNat_eq_natCast]
    rw [hgr]
    have hcond : 0 ≤ (n : Int) ∧ (n : Int).toNat < lines.length :=
      ⟨Int.ofNat_nonneg n, by simpa using h₂⟩
    rw [lineLookup, dif_pos hcond]
    simp

end Segmentation

/-- C8: for every document, `get_sections_text` yields per section a segment
whose content joins the lines `start_index ≤ i < end_index` with newlines
(the line at `end_index` excluded); indices absent from `line2text`
contribute the empty string rather than raising; and a single section from 0
to the number of lines reproduces the document exactly. -/
theorem C8_segmentation_roundtrip (doc : List Char)
    (sd : Segmentation.StructuredDocument) (title : List Char) :
    Segmentation.get_sections_text sd (Segmentation.doc_with_lines doc).2
      = sd.sections.map (fun s =>
          { title := s.title
            content := List.intercalate ['\n']
              ((Segmentation.pyRange s.start_index s.end_index).map
                (fun i => ((Segmentation.doc_with_lines doc).2 i).getD []))
            start := s.start_index
            stop := s.end_index })
    ∧ (∀ i : Int, (i < 0 ∨ (List.splitOn '\n' doc).length ≤ i) →
        (Segmentation.doc_with_lines doc).2 i = none)
    ∧ Segmentation.get_sections_text
        (Segmentation.StructuredDocument.mk
          [Segmentation.Section.mk title 0 ((List.splitOn '\n' doc).length : Int)])
        (Segmentation.doc_with_lines doc).2
      = [Segmentation.Segment.mk title doc 0
          ((List.splitOn '\n' doc).length : Int)] := by
  refine ⟨rfl, ?_, ?_⟩
  · intro i hi
    simp only [Segmentation.doc_with_lines, Segmentation.lineLookup]
    rw [dif_neg]
    omega
  · have hcontent : List.intercalate ['\n']
        ((Segmentation.pyRange 0 ((List.splitOn '\n' doc).length : Int)).map
          (fun i => (Segmentation.lineLookup (List.splitOn '\n' doc) i).getD []))
        = doc := by
      rw [Segmentation.pyRange_map_lineLookup (List.splitOn '\n' doc)]
      exact List.intercalate_splitOn doc '\n'
    simp only [Segmentation.get_sections_text, Segmentation.doc_with_lines,
      List.map_cons, List.map_nil, hcontent]

/-- Witness for C8 at the concrete document `"a\nb"`: out-of-range indices
are absent and the single full-range section reproduces the document. -/
theorem C8_segmentation_roundtrip_witness :
    ((Segmentation.doc_with_lines ['a', '\n', 'b']).2 (-1) = none)
    ∧ Segmentation.get_sections_text
        (Segmentation.StructuredDocument.mk
          [Segmentation.Section.mk ['t'] 0 2])
        (Segmentation.doc_with_lines ['a', '\n', 'b']).2
      = [Segmentation.Segment.mk ['t'] ['a', '\n', 'b'] 0 2] := by
  have h := C8_segmentation_roundtrip ['a', '\n', 'b']
    (Segmentation.StructuredDocument.mk []) ['t']
  refine ⟨h.2.1 (-1) (Or.inl (by decide)), ?_⟩
  have h2 := h.2.2
  have hlen : (List.splitOn '\n' ['a', '\n', 'b']).length = 2 := by decide
  rw [hlen] at h2
  exact_mod_cast h2

namespace Tables
/-! Embedding of `src/12_extracting_tables.ipynb` (`md_to_df`).

`md_to_df` returns non-string inputs unchanged; on a string it runs
`pd.read_csv(StringIO(data), sep="|", index_col=1)`, then
`.dropna(axis=1, how="all")`, then `.iloc[1:]`, then
`.map(lambda x: x.strip())`.  Strings are `List Char` here.  The library
calls are modelled for this use site: `read_csv` splits the text into
non-blank lines, splits each line on `'|'`, takes the first line as the
header, reads empty fields as NaN (`none`), pads short rows with NaN, and
errors on empty input, on an out-of-bounds index column and on rows with
more fields than the header; `dropna(axis=1, how="all")` drops every column
whose data cells are all NaN; `.iloc[1:]` drops the first data row;
`.map(lambda x: x.strip())` strips each remaining data cell and raises if a
NaN cell remains (floats have no `strip`). -/

/-- Python `str.strip()` whitespace set. -/
def pyIsSpace (c : Char) : Bool :=
  c = ' ' || c = '\t' || c = '\n' || c = '\r' || c = '\x0b' || c = '\x0c'

/-- Python `str.strip()`. -/
def pyStrip (s : List Char) : List Char :=
  ((s.dropWhile pyIsSpace).reverse.dropWhile pyIsSpace).reverse

/-- One `sep="|"` split of a line into fields. -/
def splitPipes (line : List Char) : List (List Char) :=
  List.splitOn '|' line

/-- An empty field is parsed as NaN, any other field as the literal string. -/
def toCell (s : List Char) : Option (List Char) :=
  if s = [] then none else some s

/-- The dataframe shape produced by `read_csv(..., index_col=1)`: an index
column (name and entries) plus the remaining columns and data rows; NaN
cells are `none`. -/
structure Frame where
  indexName : List Char
  colNames : List (List Char)
  index : List (Option (List Char))
  rows : List (List (Option (List Char)))
deriving DecidableEq, Repr

/-- `pd.read_csv(StringIO(data), sep="|", index_col=1)` for this use site. -/
def readCsv (data : List Char) : Except (List Char) Frame :=
  let lines := (List.splitOn '\n' data).filter (fun l => l ≠ [])
  match lines with
  | [] => .error ("EmptyDataError: No columns to parse from file".toList)
  | header :: rest =>
    let hfields := splitPipes header
    let n := hfields.length
    if n < 2 then .error ("IndexError: index_col out of bounds".toList)
    else if rest.any (fun r => (splitPipes r).length > n) then
      .error ("ParserError: row with too many fields".toList)
    else
      let rows := rest.map (fun r =>
        let cells := (splitPipes r).map toCell
        cells ++ List.replicate (n - cells.length) none)
      .ok { indexName := hfields.getD 1 []
            colNames := hfields.take 1 ++ hfields.drop 2
            index := rows.map (fun r => r.getD 1 none)
            rows := rows.map (fun r => r.take 1 ++ r.drop 2) }

/-- `.dropna(axis=1, how="all")`: keep the columns with at least one non-NaN
data cell. -/
def dropAllNaCols (f : Frame) : Frame :=
  let keep := (List.range f.colNames.length).filter
    (fun j => f.rows.any (fun r => (r.getD j none).isSome))
  { f with
    colNames := keep.map (fun j => f.colNames.getD j [])
    rows := f.rows.map (fun r => keep.map (fun j => r.getD j none)) }

/-- `.iloc[1:]`: drop the first data row (the markdown separator row). -/
def ilocFrom1 (f : Frame) : Frame :=
  { f with index := f.index.drop 1, rows := f.rows.drop 1 }

/-- `.map(lambda x: x.strip())`: strip every remaining data cell; a
remaining NaN cell is a float and has no `.strip`, so it raises. -/
def mapStrip (f : Frame) : Except (List Char) Frame :=
  if f.rows.any (fun r => r.any (fun c => c.isNone)) then
    .error ("AttributeError: float object has no attribute strip".toList)
  else
    .ok { f with
      rows := f.rows.map (fun r => r.map (fun c => some (pyStrip (c.getD [])))) }

/-- A Python value reaching `md_to_df`: a string, a dataframe, or anything
else (tagged). -/
inductive PyObj where
  | pstr (s : List Char)
  | pdf (f : Frame)
  | other (tag : Nat)
deriving DecidableEq, Repr

/-- The whole parse pipeline applied to a string. -/
def mdPipeline (s : List Char) : Except (List Char) Frame :=
  (readCsv s).map (fun f => ilocFrom1 (dropAllNaCols f)) >>= mapStrip

/-- `md_to_df`. -/
def md_to_df : PyObj → Except (List Char) PyObj
  | .pstr s => (mdPipeline s).map .pdf
  | .pdf f => .ok (.pdf f)
  | .other t => .ok (.other t)

end Tables

/-- Counterexample to C4 as stated: on the empty string `md_to_df` does not
return a tabular structure — `read_csv` raises `EmptyDataError`. -/
theorem C4_counterexample :
    (Tables.md_to_df (Tables.PyObj.pstr [])).isOk = false := by
  decide

/-- C4 amended: `md_to_df` is the identity off strings; on a string it runs
exactly the pipeline parse-as-pipe-delimited-rows-with-field-1-as-index,
drop all-empty columns, drop the first parsed data row, strip every
remaining cell; and whenever that pipeline succeeds the parsed table is
returned (inputs on which the parse fails raise instead of returning). -/
theorem C4_md_to_df (v : Tables.PyObj) (s : List Char) :
    ((∀ t, v ≠ Tables.PyObj.pstr t) → Tables.md_to_df v = .ok v)
    ∧ Tables.md_to_df (Tables.PyObj.pstr s)
        = ((Tables.readCsv s).map
              (fun f => Tables.ilocFrom1 (Tables.dropAllNaCols f))
            >>= Tables.mapStrip).map Tables.PyObj.pdf
    ∧ (∀ fr, Tables.mdPipeline s = .ok fr →
        Tables.md_to_df (Tables.PyObj.pstr s) = .ok (Tables.PyObj.pdf fr)) := by
  refine ⟨?_, rfl, ?_⟩
  · intro h
    cases v with
    | pstr t => exact absurd rfl (h t)
    | pdf f => rfl
    | other t => rfl
  · intro fr hfr
    show (Tables.mdPipeline s).map Tables.PyObj.pdf = _
    rw [hfr]
    rfl

/-- Witness for C4 at a concrete non-string input and a concrete two-column
markdown table (index column `a`, data column `b`, one data row), whose
parse succeeds. -/
theorem C4_md_to_df_witness :
    Tables.md_to_df (Tables.PyObj.other 0) = .ok (Tables.PyObj.other 0)
    ∧ Tables.md_to_df (Tables.PyObj.pstr "| a | b |\n|---|---|\n| x | y |".toList)
      = .ok (Tables.PyObj.pdf
          (Tables.Frame.mk " a ".toList [" b ".toList] [some " x ".toList]
            [[some ['y']]])) :=
  ⟨(C4_md_to_df (Tables.PyObj.other 0) []).1
      (fun t h => Tables.PyObj.noConfusion h),
   (C4_md_to_df (Tables.PyObj.other 0)
      "| a | b |\n|---|---|\n| x | y |".toList).2.2
      (Tables.Frame.mk " a ".toList [" b ".toList] [some " x ".toList]
        [[some ['y']]]) (by rfl)⟩
